import Mathlib

/-!
Shallow embedding of the LiftLog calorie domain:
the calories Redux slice (`CaloriesState`, its reducers), the persistence
effects (`applyCaloriesEffects`), the calories page derivations
(`entriesForSelectedDay`, `summary`, `filteredEntries`, `saveManualEntry`,
`saveEditedEntry`) and the calorie-goal calculator (`onCalculate`).

Numbers: JS `number` values are embedded as `ℚ` where fractional values occur
(the calculator, parsed form input) and as `ℤ` where the code only ever holds
integers (stored calories after `Math.round`, the daily goal).  `Math.round`
is embedded as `jsRound`.
-/

/-- `Math.round` on a rational: round half away from zero for positives;
JS rounds half towards plus infinity, i.e. `Math.round x = ⌊x + 1/2⌋`. -/
def jsRound (q : ℚ) : ℤ := ⌊q + 1 / 2⌋

/-- `CalorieEntryType` from `models/diet.ts`: `'consumed' | 'burned'`. -/
inductive CalorieEntryType where
  | consumed
  | burned
deriving DecidableEq

/-- `CalorieEntrySource` from `models/diet.ts`: `'manual' | 'usda'`. -/
inductive CalorieEntrySource where
  | manual
  | usda
deriving DecidableEq

/-- `CalorieEntry` from `models/diet.ts`. -/
structure CalorieEntry where
  id : String
  name : String
  calories : ℤ
  type : CalorieEntryType
  note : Option String
  source : CalorieEntrySource
  recordedAtIso : String
deriving DecidableEq

/-- `CaloriesState` from the calories slice. -/
structure CaloriesState where
  entries : List CalorieEntry
  dailyGoal : ℤ
  isHydrated : Bool
deriving DecidableEq

/-- `initialState` of the calories slice. -/
def initialCaloriesState : CaloriesState :=
  { entries := [], dailyGoal := 2400, isHydrated := false }

/-- The actions of the calories slice, plus `initializeCaloriesStateSlice`
(a reducerless `createAction`) and `updateEntry` (dispatched by the calories
page; its reducer is not part of the slice file, see `updateEntryReducer`). -/
inductive CaloriesAction where
  | setDailyGoal (g : ℤ)
  | setEntries (es : List CalorieEntry)
  | addEntry (e : CalorieEntry)
  | removeEntry (id : String)
  | setCaloriesHydrated (b : Bool)
  | updateEntry (e : CalorieEntry)
  | initializeCaloriesStateSlice
deriving DecidableEq

/-- Modelled from the spec: the `updateEntry` reducer is missing from the
slice file in the sources (the calories page imports and dispatches it);
per the spec it "requires an entry with `entry.id` already exists; replaces
it wholesale", identity preserved. -/
def updateEntryReducer (e : CalorieEntry) (entries : List CalorieEntry) :
    List CalorieEntry :=
  entries.map (fun x => if x.id = e.id then e else x)

/-- `caloriesReducer`: the slice reducers from the calories slice file.
`setDailyGoal` overwrites the goal; `setEntries` overwrites the list;
`addEntry` prepends; `removeEntry` filters out the matching id;
`setCaloriesHydrated` overwrites the flag.  Unknown actions
(`initializeCaloriesStateSlice`) leave the state unchanged, as in Redux. -/
def caloriesReducer (s : CaloriesState) : CaloriesAction → CaloriesState
  | .setDailyGoal g => { s with dailyGoal := g }
  | .setEntries es => { s with entries := es }
  | .addEntry e => { s with entries := e :: s.entries }
  | .removeEntry id => { s with entries := s.entries.filter (fun e => decide (e.id ≠ id)) }
  | .setCaloriesHydrated b => { s with isHydrated := b }
  | .updateEntry e => { s with entries := updateEntryReducer e s.entries }
  | .initializeCaloriesStateSlice => s

/-- The trigger list of the save effect in `applyCaloriesEffects`:
`[setDailyGoal, setEntries, addEntry, removeEntry]`.  Neither
`setCaloriesHydrated` nor `updateEntry` nor the initialize action is in it. -/
def isSaveTrigger : CaloriesAction → Bool
  | .setDailyGoal _ => true
  | .setEntries _ => true
  | .addEntry _ => true
  | .removeEntry _ => true
  | .setCaloriesHydrated _ => false
  | .updateEntry _ => false
  | .initializeCaloriesStateSlice => false

/-- The payload of one persistence write: the whole snapshot
(`setCalorieGoal(calories.dailyGoal)` and `setCalorieEntries(calories.entries)`). -/
structure Snapshot where
  dailyGoal : ℤ
  entries : List CalorieEntry
deriving DecidableEq

/-- Modelled from the spec: the effect-subscription semantics of
`addEffect` from `@/store/store` (not among the sources).  Dispatching an
action reduces the state and then runs the save effect of
`applyCaloriesEffects` on `stateAfterReduce`: if the action is in the
trigger list and `calories.isHydrated` holds after the reduce, the current
snapshot is written to the preference service; otherwise nothing is written. -/
def stepAction (s : CaloriesState) (a : CaloriesAction) :
    CaloriesState × Option Snapshot :=
  let s2 := caloriesReducer s a
  (s2, if isSaveTrigger a && s2.isHydrated then
         some { dailyGoal := s2.dailyGoal, entries := s2.entries }
       else none)

/-- Run a sequence of dispatched actions, collecting the persistence writes
they trigger, in order. -/
def runActions : CaloriesState → List CaloriesAction → CaloriesState × List Snapshot
  | s, [] => (s, [])
  | s, a :: rest =>
    let p := stepAction s a
    let q := runActions p.1 rest
    (q.1, match p.2 with
          | none => q.2
          | some w => w :: q.2)

/-- The load effect of `applyCaloriesEffects`: `Promise.all` over
`getCalorieGoal` and `getCalorieEntries`, then dispatch
`setDailyGoal(goal)`, `setEntries(entries)`, `setCaloriesHydrated(true)`.
If either fetch fails, `Promise.all` rejects and none of the dispatches run
(failure of the joined fetch is the `Except.error` case). -/
def loadDispatches (r : Except Unit (ℤ × List CalorieEntry)) :
    List CaloriesAction :=
  match r with
  | .error _ => []
  | .ok (g, es) =>
    [.setDailyGoal g, .setEntries es, .setCaloriesHydrated true]

/-- Number of `false → true` transitions of the hydrated flag along a run. -/
def hydFlips : CaloriesState → List CaloriesAction → Nat
  | _, [] => 0
  | s, a :: rest =>
    (if s.isHydrated = false ∧ (caloriesReducer s a).isHydrated = true then 1 else 0)
      + hydFlips (caloriesReducer s a) rest

/-!
### Calories page derivations (`app/(tabs)/calories/index.tsx`)

Time is abstracted as in §6 of the design: `Instant.parse` and the
instant-to-local-date projection for the ambient `zoneId` are supplied by a
`TimeModel` (instants are totally ordered, embedded as `ℤ`; local calendar
dates are embedded as `ℤ` day numbers).
-/

/-- The time/locale collaborator: `Instant.parse` and
`instant.atZone(zoneId).toLocalDate()` for the ambient zone. -/
structure TimeModel where
  parseInstant : String → ℤ
  toLocalDate : ℤ → ℤ

/-- The local calendar date an entry belongs to:
`Instant.parse(entry.recordedAtIso).atZone(zoneId).toLocalDate()`. -/
def localDayOf (tm : TimeModel) (e : CalorieEntry) : ℤ :=
  tm.toLocalDate (tm.parseInstant e.recordedAtIso)

/-- The descending-by-instant comparison used by the page's `.sort`
comparator `(a, b) => Instant.parse(b).compareTo(Instant.parse(a))`. -/
def recordedDesc (tm : TimeModel) (a b : CalorieEntry) : Prop :=
  tm.parseInstant b.recordedAtIso ≤ tm.parseInstant a.recordedAtIso

instance (tm : TimeModel) : DecidableRel (recordedDesc tm) :=
  fun a b =>
    Int.decLe (tm.parseInstant b.recordedAtIso) (tm.parseInstant a.recordedAtIso)

/-- `entriesForSelectedDay`: filter the store's entries to those whose
`recordedAtIso`, projected to a local date, equals `selectedDate`, then sort
by recorded instant descending (JS `Array.sort` is stable; embedded as a
stable insertion sort with the same comparator). -/
def entriesForSelectedDay (tm : TimeModel) (selectedDate : ℤ)
    (entries : List CalorieEntry) : List CalorieEntry :=
  List.insertionSort (recordedDesc tm)
    (entries.filter (fun e => decide (localDayOf tm e = selectedDate)))

/-- `CalorieSummary` from the calories page. -/
structure CalorieSummary where
  goal : ℤ
  consumed : ℤ
  burned : ℤ
  net : ℤ
deriving DecidableEq

/-- The `summary` memo: `consumed`/`burned` are `reduce`-sums of the
calories of the selected day's entries of each type; `net = consumed - burned`. -/
def summaryFor (tm : TimeModel) (selectedDate : ℤ) (dailyGoal : ℤ)
    (entries : List CalorieEntry) : CalorieSummary :=
  let dayEntries := entriesForSelectedDay tm selectedDate entries
  let consumed :=
    (dayEntries.filter (fun e => decide (e.type = .consumed))).foldl
      (fun acc e => acc + e.calories) 0
  let burned :=
    (dayEntries.filter (fun e => decide (e.type = .burned))).foldl
      (fun acc e => acc + e.calories) 0
  { goal := dailyGoal, consumed := consumed, burned := burned,
    net := consumed - burned }

/-- `goalDifference` from `ListHeader`: `goal - net` (the remaining-vs-goal
delta; positive means under goal, negative means over goal). -/
def goalDifference (s : CalorieSummary) : ℤ :=
  s.goal - s.net

/-- `needle` starts `hay` (character-wise, the loop of a JS
`String.prototype.includes` check anchored at the front). -/
def startsWithList : List Char → List Char → Bool
  | [], _ => true
  | _ :: _, [] => false
  | a :: as, b :: bs => a == b && startsWithList as bs

/-- JS `hay.includes(needle)`: some position of `hay` starts with `needle`. -/
def containsSub (needle hay : List Char) : Bool :=
  match hay with
  | [] => startsWithList needle []
  | _ :: t => startsWithList needle hay || containsSub needle t

/-- `s.toLocaleLowerCase()` as a character list. -/
def jsLower (s : String) : List Char :=
  s.data.map Char.toLower

/-- The haystack of the page's search filter: the template literal
interpolation of `name`, a space, and `note ?? ''`. -/
def searchHaystack (e : CalorieEntry) : String :=
  e.name ++ " " ++ e.note.getD ""

/-- `filteredEntries`: with empty search text, the whole selected day; else
the selected day's entries whose lower-cased `name`/space/`note` haystack
contains the lower-cased search text. -/
def filteredEntries (tm : TimeModel) (selectedDate : ℤ)
    (entries : List CalorieEntry) (searchText : String) : List CalorieEntry :=
  if searchText = "" then entriesForSelectedDay tm selectedDate entries
  else
    (entriesForSelectedDay tm selectedDate entries).filter
      (fun e => containsSub (jsLower searchText) (jsLower (searchHaystack e)))

/-- JS `String.prototype.trim`: drop whitespace from both ends. -/
def jsTrim (s : String) : String :=
  String.mk
    (((s.data.dropWhile Char.isWhitespace).reverse.dropWhile
        Char.isWhitespace).reverse)

/-- The validation failures of the manual-entry and edit dialogs:
no dialog open / no entry being edited, empty trimmed name, or a calorie
input that is not a finite positive number. -/
inductive ManualError where
  | noDialog
  | emptyName
  | invalidCalories
deriving DecidableEq

/-- `saveManualEntry` from the calories page.  `caloriesParsed` is the
result of `Number.parseFloat` on the comma-normalised calories text (`none`
embeds a non-finite result).  On success the dispatched `addEntry` payload
is returned: trimmed name, `Math.round` of the parsed calories, the dialog's
type, the trimmed note (or absent), source `manual`, and a fresh id and
synthesized `recordedAtIso` (parameters here, produced by `uuidv4` and
`createRecordedAtIso` in the source). -/
def saveManualEntry (manualDialogType : Option CalorieEntryType)
    (manualName : String) (caloriesParsed : Option ℚ) (manualNote : String)
    (newId : String) (recordedAtIso : String) :
    Except ManualError CalorieEntry :=
  match manualDialogType with
  | none => .error .noDialog
  | some t =>
    if jsTrim manualName = "" then .error .emptyName
    else
      match caloriesParsed with
      | none => .error .invalidCalories
      | some c =>
        if c ≤ 0 then .error .invalidCalories
        else
          .ok { id := newId, name := jsTrim manualName,
                calories := jsRound c, type := t,
                note := if jsTrim manualNote = "" then none
                        else some (jsTrim manualNote),
                source := .manual, recordedAtIso := recordedAtIso }

/-- `saveEditedEntry` from the calories page.  Same validation as
`saveManualEntry`; on success the dispatched `updateEntry` payload is the
edited entry spread over the entry being edited (id and `recordedAtIso`
preserved). -/
def saveEditedEntry (editingEntry : Option CalorieEntry) (editName : String)
    (caloriesParsed : Option ℚ) (editNote : String)
    (editType : CalorieEntryType) : Except ManualError CalorieEntry :=
  match editingEntry with
  | none => .error .noDialog
  | some entry =>
    if jsTrim editName = "" then .error .emptyName
    else
      match caloriesParsed with
      | none => .error .invalidCalories
      | some c =>
        if c ≤ 0 then .error .invalidCalories
        else
          .ok { entry with
                name := jsTrim editName
                calories := jsRound c
                note := if jsTrim editNote = "" then none
                        else some (jsTrim editNote)
                type := editType }

/-!
### Calorie-goal calculator (`settings/diet/calorie-calculator.tsx`)
-/

/-- The two sexes of the calculator form. -/
inductive CalcSex where
  | male
  | female
deriving DecidableEq

/-- The five activity tiers of the calculator form. -/
inductive ActivityLevel where
  | sedentary
  | light
  | moderate
  | active
  | very
deriving DecidableEq

/-- The three goal types of the calculator form. -/
inductive GoalType where
  | loss
  | maintain
  | gain
deriving DecidableEq

/-- The validation failures of `onCalculate`, in source order. -/
inductive CalcError where
  | weightError
  | heightError
  | ageError
  | changeError
deriving DecidableEq

/-- `KG_PER_LB = 0.45359237`. -/
def KG_PER_LB : ℚ := 0.45359237

/-- `CM_PER_INCH = 2.54`. -/
def CM_PER_INCH : ℚ := 2.54

/-- `KCAL_PER_KG = 7700`. -/
def KCAL_PER_KG : ℚ := 7700

/-- `getActivityFactor` from the calculator screen. -/
def getActivityFactor : ActivityLevel → ℚ
  | .sedentary => 1.2
  | .light => 1.375
  | .moderate => 1.55
  | .active => 1.725
  | .very => 1.9

/-- The Mifflin-St Jeor basal metabolic rate as computed by `onCalculate`. -/
def bmrFor (sex : CalcSex) (weightKg heightCm : ℚ) (age : ℤ) : ℚ :=
  match sex with
  | .male => 10 * weightKg + 6.25 * heightCm - 5 * age + 5
  | .female => 10 * weightKg + 6.25 * heightCm - 5 * age - 161

/-- The imperial-to-metric weight conversion applied by `onCalculate`. -/
def toKg (useImperial : Bool) (w : ℚ) : ℚ :=
  if useImperial then w * KG_PER_LB else w

/-- The imperial-to-metric height conversion applied by `onCalculate`. -/
def toCm (useImperial : Bool) (h : ℚ) : ℚ :=
  if useImperial then h * CM_PER_INCH else h

/-- `onCalculate` from the calculator screen.  The four text inputs arrive
already parsed (`none` embeds a non-finite `parseFloat`/`parseInt` result).
Validation follows the source order: weight, height, age, then — only when
the goal is not `maintain` — the weekly change.  The result is the pair
`(calorieTarget, deltaPerDay)` set on success, both `Math.round`ed, with
`targetCalories = max(0, tdee ∓ dailyDelta)`. -/
def onCalculate (useImperial : Bool) (sex : CalcSex)
    (activity : ActivityLevel) (goalType : GoalType)
    (weightValue heightValue : Option ℚ) (ageValue : Option ℤ)
    (changeValue : Option ℚ) : Except CalcError (ℤ × ℤ) :=
  match weightValue with
  | none => .error .weightError
  | some w =>
    if w ≤ 0 then .error .weightError
    else
      match heightValue with
      | none => .error .heightError
      | some h =>
        if h ≤ 0 then .error .heightError
        else
          match ageValue with
          | none => .error .ageError
          | some a =>
            if a ≤ 0 then .error .ageError
            else
              if goalType ≠ .maintain ∧
                  (changeValue = none ∨ ∃ c, changeValue = some c ∧ c ≤ 0) then
                .error .changeError
              else
                let weightKg := toKg useImperial w
                let heightCm := toCm useImperial h
                let weeklyChangeKg :=
                  if goalType = .maintain then 0
                  else
                    match changeValue with
                    | some c => if useImperial then c * KG_PER_LB else c
                    | none => 0
                let bmr := bmrFor sex weightKg heightCm a
                let tdee := bmr * getActivityFactor activity
                let dailyDelta :=
                  if goalType = .maintain then 0
                  else weeklyChangeKg * KCAL_PER_KG / 7
                let targetCalories :=
                  max 0 (if goalType = .loss then tdee - dailyDelta
                         else tdee + dailyDelta)
                .ok (jsRound targetCalories, jsRound dailyDelta)

/-!
### Sample data shared by witnesses and concrete evaluations
-/

/-- A sample consumed entry. -/
def sampleEntry : CalorieEntry :=
  { id := "e1", name := "Lunch", calories := 500, type := .consumed,
    note := none, source := .manual, recordedAtIso := "2025-01-01T12:00:00Z" }

/-- A sample burned entry with a distinct id. -/
def sampleEntry2 : CalorieEntry :=
  { id := "e2", name := "Run", calories := 200, type := .burned,
    note := none, source := .manual, recordedAtIso := "2025-01-01T13:00:00Z" }

/-- A hydrated store holding `sampleEntry`. -/
def hydratedSample : CaloriesState :=
  { entries := [sampleEntry], dailyGoal := 2000, isHydrated := true }

/-- A hydrated store holding both sample entries. -/
def pairSample : CaloriesState :=
  { entries := [sampleEntry, sampleEntry2], dailyGoal := 2400,
    isHydrated := true }

/-!
### Theorems
-/

/-- Claim C10: every slice reducer modifies only its own field of
`CaloriesState` — `setDailyGoal` leaves `entries` and `isHydrated`
unchanged; `setEntries`, `addEntry` and `removeEntry` leave `dailyGoal` and
`isHydrated` unchanged; `setCaloriesHydrated` leaves `entries` and
`dailyGoal` unchanged. -/
theorem reducers_touch_only_own_field (s : CaloriesState) (g : ℤ)
    (es : List CalorieEntry) (e : CalorieEntry) (id : String) (b : Bool) :
    ((caloriesReducer s (.setDailyGoal g)).entries = s.entries
      ∧ (caloriesReducer s (.setDailyGoal g)).isHydrated = s.isHydrated)
    ∧ ((caloriesReducer s (.setEntries es)).dailyGoal = s.dailyGoal
      ∧ (caloriesReducer s (.setEntries es)).isHydrated = s.isHydrated)
    ∧ ((caloriesReducer s (.addEntry e)).dailyGoal = s.dailyGoal
      ∧ (caloriesReducer s (.addEntry e)).isHydrated = s.isHydrated)
    ∧ ((caloriesReducer s (.removeEntry id)).dailyGoal = s.dailyGoal
      ∧ (caloriesReducer s (.removeEntry id)).isHydrated = s.isHydrated)
    ∧ ((caloriesReducer s (.setCaloriesHydrated b)).entries = s.entries
      ∧ (caloriesReducer s (.setCaloriesHydrated b)).dailyGoal = s.dailyGoal) :=
  ⟨⟨rfl, rfl⟩, ⟨rfl, rfl⟩, ⟨rfl, rfl⟩, ⟨rfl, rfl⟩, rfl, rfl⟩

/-- Claim C2 (code evaluated at the failing input): the save effect's
trigger list omits `updateEntry`, so dispatching `updateEntry` on a
hydrated store triggers no persistence write, while e.g. `setDailyGoal`
dispatched on the same store does write the full snapshot. -/
theorem updateEntry_triggers_no_write :
    isSaveTrigger (.updateEntry sampleEntry) = false
    ∧ (stepAction hydratedSample (.updateEntry sampleEntry)).2 = none
    ∧ (stepAction hydratedSample (.setDailyGoal 1800)).2 =
        some { dailyGoal := 1800, entries := [sampleEntry] } :=
  ⟨rfl, rfl, rfl⟩

/-- Claim C3: a mutation dispatched while the store is not yet hydrated
triggers no persistence write; any emitted write happens in a state whose
hydrated flag is true and carries exactly the then-current snapshot (goal
and full entries list); and the load path's own dispatches (goal, entries,
hydration flag) emit no write at all. -/
theorem unhydrated_mutations_never_write (s : CaloriesState)
    (a : CaloriesAction) (g : ℤ) (es : List CalorieEntry) :
    (s.isHydrated = false → (stepAction s a).2 = none)
    ∧ (∀ w, (stepAction s a).2 = some w →
        (caloriesReducer s a).isHydrated = true
        ∧ w.dailyGoal = (caloriesReducer s a).dailyGoal
        ∧ w.entries = (caloriesReducer s a).entries)
    ∧ (s.isHydrated = false →
        (runActions s (loadDispatches (Except.ok (g, es)))).2 = []) := by
  refine ⟨fun h => ?_, fun w hw => ?_, fun h => ?_⟩
  · cases a <;> simp [stepAction, caloriesReducer, isSaveTrigger, h]
  · simp only [stepAction] at hw
    split at hw
    · rename_i hcond
      rw [Bool.and_eq_true] at hcond
      cases hw
      exact ⟨hcond.2, rfl, rfl⟩
    · exact absurd hw (by simp)
  · simp [loadDispatches, runActions, stepAction, caloriesReducer,
      isSaveTrigger, h]

/-- Witness for C3 at a concrete input: from the un-hydrated initial state,
an `addEntry` dispatch writes nothing, and the whole load-path dispatch
sequence writes nothing. -/
theorem unhydrated_mutations_never_write_witness :
    (stepAction initialCaloriesState (.addEntry sampleEntry)).2 = none
    ∧ (runActions initialCaloriesState
        (loadDispatches (Except.ok (1800, [sampleEntry])))).2 = [] :=
  ⟨(unhydrated_mutations_never_write initialCaloriesState
      (.addEntry sampleEntry) 1800 [sampleEntry]).1 rfl,
   (unhydrated_mutations_never_write initialCaloriesState
      (.addEntry sampleEntry) 1800 [sampleEntry]).2.2 rfl⟩

/-- If the hydrated flag holds and the dispatched action is not
`setCaloriesHydrated false`, it still holds after the reduce. -/
theorem hydrated_stays (s : CaloriesState) (a : CaloriesAction)
    (h : s.isHydrated = true)
    (ha : ∀ b, a = CaloriesAction.setCaloriesHydrated b → b = true) :
    (caloriesReducer s a).isHydrated = true := by
  cases a with
  | setCaloriesHydrated b => exact ha b rfl
  | setDailyGoal g => exact h
  | setEntries es => exact h
  | addEntry e => exact h
  | removeEntry id => exact h
  | updateEntry e => exact h
  | initializeCaloriesStateSlice => exact h

/-- Once hydrated, a run whose `setCaloriesHydrated` payloads are all true
produces no further false-to-true flips of the flag. -/
theorem hydFlips_zero_of_hydrated (acts : List CaloriesAction) :
    ∀ s : CaloriesState, s.isHydrated = true →
      (∀ b, CaloriesAction.setCaloriesHydrated b ∈ acts → b = true) →
      hydFlips s acts = 0 := by
  induction acts with
  | nil => intro s _ _; rfl
  | cons a rest ih =>
    intro s h hacts
    have h2 : (caloriesReducer s a).isHydrated = true :=
      hydrated_stays s a h
        (fun b hb => hacts b (hb ▸ List.mem_cons_self a rest))
    have h3 := ih (caloriesReducer s a) h2
      (fun b hb => hacts b (List.mem_cons_of_mem a hb))
    simp [hydFlips, h, h2, h3]

/-- Claim C4: the load effect is atomic and hydrates at most once.  A
failed joined fetch applies nothing (the state, including its hydrated
flag, is exactly as before and nothing is written); a successful fetch
first applies both the goal and the entries while still un-hydrated, and
only then flips the flag; and along any run whose `setCaloriesHydrated`
payloads are all true (the only payload ever dispatched in the sources),
the flag flips false-to-true at most once. -/
theorem hydration_once_and_atomic (s : CaloriesState) (g : ℤ)
    (es : List CalorieEntry) (acts : List CaloriesAction) :
    runActions s (loadDispatches (Except.error ())) = (s, [])
    ∧ (s.isHydrated = false →
        (runActions s (loadDispatches (Except.ok (g, es)))).1 =
          { entries := es, dailyGoal := g, isHydrated := true }
        ∧ (runActions s ((loadDispatches (Except.ok (g, es))).take 2)).1 =
          { entries := es, dailyGoal := g, isHydrated := false })
    ∧ ((∀ b, CaloriesAction.setCaloriesHydrated b ∈ acts → b = true) →
        hydFlips s acts ≤ 1) := by
  refine ⟨rfl, fun h => ?_, fun hacts => ?_⟩
  · obtain ⟨en, dg, hy⟩ := s
    simp only [CaloriesState.isHydrated] at h
    subst h
    exact ⟨rfl, rfl⟩
  · induction acts generalizing s with
    | nil => simp [hydFlips]
    | cons a rest ih =>
      by_cases h2 : (caloriesReducer s a).isHydrated = true
      · have h0 : hydFlips (caloriesReducer s a) rest = 0 :=
          hydFlips_zero_of_hydrated rest (caloriesReducer s a) h2
            (fun b hb => hacts b (List.mem_cons_of_mem a hb))
        simp only [hydFlips, h0]
        split
        · simp
        · simp
      · have h2f : (caloriesReducer s a).isHydrated = false :=
          Bool.not_eq_true _ ▸ Bool.eq_false_iff.mpr
            (fun hc => h2 hc)
        simp only [hydFlips, h2, and_false, if_false]
        have := ih (caloriesReducer s a)
          (fun b hb => hacts b (List.mem_cons_of_mem a hb))
        simpa using this

/-- Witness for C4 at a concrete input: loading goal 1800 and one entry
from the initial state ends hydrated with exactly those values, and the
load run flips the flag at most once. -/
theorem hydration_once_and_atomic_witness :
    (runActions initialCaloriesState
        (loadDispatches (Except.ok (1800, [sampleEntry])))).1 =
      { entries := [sampleEntry], dailyGoal := 1800, isHydrated := true }
    ∧ hydFlips initialCaloriesState
        (loadDispatches (Except.ok (1800, [sampleEntry]))) ≤ 1 :=
  ⟨((hydration_once_and_atomic initialCaloriesState 1800 [sampleEntry]
      []).2.1 rfl).1,
   (hydration_once_and_atomic initialCaloriesState 1800 [sampleEntry]
      (loadDispatches (Except.ok (1800, [sampleEntry])))).2.2 (by decide)⟩

/-- Replacing by id is the identity when every list element whose id
matches is the replacement itself. -/
theorem map_replace_eq_self (e : CalorieEntry) :
    ∀ l : List CalorieEntry, (∀ x ∈ l, x.id = e.id → x = e) →
      l.map (fun x => if x.id = e.id then e else x) = l
  | [], _ => rfl
  | a :: t, h => by
    have ht := map_replace_eq_self e t
      (fun x hx => h x (List.mem_cons_of_mem a hx))
    by_cases ha : a.id = e.id
    · have hae : a = e := h a (List.mem_cons_self a t) ha
      simp [ha, ht, hae]
    · simp [ha, ht]

/-- In a list with pairwise distinct ids, an id determines the element. -/
theorem id_inj_of_pairwise :
    ∀ l : List CalorieEntry, l.Pairwise (fun a b => a.id ≠ b.id) →
      ∀ x ∈ l, ∀ y ∈ l, x.id = y.id → x = y
  | [], _ => by simp
  | a :: t, hp => by
    rw [List.pairwise_cons] at hp
    intro x hx y hy hxy
    rcases List.mem_cons.1 hx with rfl | hx2
    · rcases List.mem_cons.1 hy with rfl | hy2
      · rfl
      · exact absurd hxy (hp.1 y hy2)
    · rcases List.mem_cons.1 hy with rfl | hy2
      · exact absurd hxy.symm (hp.1 x hx2)
      · exact id_inj_of_pairwise t hp.2 x hx2 y hy2 hxy

/-- Claim C5: `updateEntry` leaves the goal and hydrated flag unchanged,
its effect on the entry list is exactly the keyed wholesale replacement
(entries whose id differs from the payload's stay in the list untouched),
and — when ids are pairwise distinct, the store invariant — updating with
an unchanged copy of a stored entry leaves the whole store identical. -/
theorem updateEntry_replaces_wholesale (s : CaloriesState)
    (e : CalorieEntry) :
    (caloriesReducer s (.updateEntry e)).dailyGoal = s.dailyGoal
    ∧ (caloriesReducer s (.updateEntry e)).isHydrated = s.isHydrated
    ∧ (caloriesReducer s (.updateEntry e)).entries =
        s.entries.map (fun x => if x.id = e.id then e else x)
    ∧ (∀ x ∈ s.entries, x.id ≠ e.id →
        x ∈ (caloriesReducer s (.updateEntry e)).entries)
    ∧ (s.entries.Pairwise (fun a b => a.id ≠ b.id) → e ∈ s.entries →
        caloriesReducer s (.updateEntry e) = s) := by
  refine ⟨rfl, rfl, rfl, fun x hx hne => ?_, fun hp he => ?_⟩
  · have : (if x.id = e.id then e else x) = x := if_neg hne
    exact this ▸ List.mem_map_of_mem (fun x => if x.id = e.id then e else x) hx
  · obtain ⟨en, dg, hy⟩ := s
    have heq : updateEntryReducer e en = en :=
      map_replace_eq_self e en
        (fun x hx hxe => id_inj_of_pairwise en hp x hx e he hxe)
    simp [caloriesReducer, heq]

/-- Witness for C5 at a concrete input: updating `pairSample` (two entries
with distinct ids) with an unchanged copy of its first entry leaves the
store identical. -/
theorem updateEntry_replaces_wholesale_witness :
    caloriesReducer pairSample (.updateEntry sampleEntry) = pairSample :=
  (updateEntry_replaces_wholesale pairSample sampleEntry).2.2.2.2
    (by decide) (by decide)

/-- The page's `reduce((acc, entry) => acc + entry.calories, 0)` is the sum
of the calories. -/
theorem foldl_add_calories (l : List CalorieEntry) :
    ∀ a : ℤ,
      l.foldl (fun acc e => acc + e.calories) a =
        a + (l.map (fun e => e.calories)).sum := by
  induction l with
  | nil => simp
  | cons e t ih =>
    intro a
    simp [List.foldl_cons, ih, add_assoc]

/-- The selected day's list is a permutation of the day filter of the
store's entries (sorting only reorders). -/
theorem entriesForSelectedDay_perm (tm : TimeModel) (d : ℤ)
    (entries : List CalorieEntry) :
    List.Perm (entriesForSelectedDay tm d entries)
      (entries.filter (fun e => decide (localDayOf tm e = d))) :=
  List.perm_insertionSort _ _

/-- Membership in the selected day's list is membership in the store
together with the day condition. -/
theorem mem_entriesForSelectedDay (tm : TimeModel) (d : ℤ)
    (entries : List CalorieEntry) (e : CalorieEntry) :
    e ∈ entriesForSelectedDay tm d entries ↔
      e ∈ entries ∧ localDayOf tm e = d := by
  rw [(entriesForSelectedDay_perm tm d entries).mem_iff, List.mem_filter]
  simp

/-- The `TimeModel` of the worked example: three ISO strings mapping to
instants 100, 200 (day 0) and 1500 (day 1), with 1440-minute days. -/
def exampleTime : TimeModel :=
  { parseInstant := fun s => if s = "a" then 100 else if s = "b" then 200 else 1500
    toLocalDate := fun i => i / 1440 }

/-- 500 kcal consumed on day D. -/
def exEntryConsumed : CalorieEntry :=
  { id := "x1", name := "Meal", calories := 500, type := .consumed,
    note := none, source := .manual, recordedAtIso := "a" }

/-- 200 kcal burned on day D. -/
def exEntryBurned : CalorieEntry :=
  { id := "x2", name := "Jog", calories := 200, type := .burned,
    note := none, source := .manual, recordedAtIso := "b" }

/-- 300 kcal consumed on day D + 1. -/
def exEntryNextDay : CalorieEntry :=
  { id := "x3", name := "Snack", calories := 300, type := .consumed,
    note := none, source := .usda, recordedAtIso := "c" }

/-- The example's entry store. -/
def exampleEntries : List CalorieEntry :=
  [exEntryConsumed, exEntryBurned, exEntryNextDay]

/-- Claim C6: day aggregation keeps exactly the entries whose recorded
instant projects onto the selected date; `consumed`/`burned` are the sums
of the calories of that set by type, `net = consumed - burned` and the
remaining delta is `goal - net`; and on the worked example (500 consumed
and 200 burned on day D, 300 consumed on day D + 1, goal 2000, selected
day D) it yields consumed 500, burned 200, net 300 and remaining 1700. -/
theorem summary_is_day_aggregation (tm : TimeModel) (d g : ℤ)
    (entries : List CalorieEntry) :
    (∀ e, e ∈ entriesForSelectedDay tm d entries ↔
        e ∈ entries ∧ localDayOf tm e = d)
    ∧ (summaryFor tm d g entries).consumed =
        (((entries.filter (fun e => decide (localDayOf tm e = d))).filter
            (fun e => decide (e.type = .consumed))).map
          (fun e => e.calories)).sum
    ∧ (summaryFor tm d g entries).burned =
        (((entries.filter (fun e => decide (localDayOf tm e = d))).filter
            (fun e => decide (e.type = .burned))).map
          (fun e => e.calories)).sum
    ∧ (summaryFor tm d g entries).net =
        (summaryFor tm d g entries).consumed -
          (summaryFor tm d g entries).burned
    ∧ (summaryFor tm d g entries).goal = g
    ∧ goalDifference (summaryFor tm d g entries) =
        g - (summaryFor tm d g entries).net
    ∧ summaryFor exampleTime 0 2000 exampleEntries =
        { goal := 2000, consumed := 500, burned := 200, net := 300 }
    ∧ goalDifference (summaryFor exampleTime 0 2000 exampleEntries) = 1700 := by
  have hperm := entriesForSelectedDay_perm tm d entries
  have hc :=
    (((hperm.filter (fun e => decide (e.type = .consumed))).map
      (fun e => e.calories)).sum_eq)
  have hb :=
    (((hperm.filter (fun e => decide (e.type = .burned))).map
      (fun e => e.calories)).sum_eq)
  refine ⟨mem_entriesForSelectedDay tm d entries, ?_, ?_, rfl, rfl, rfl,
    by decide, by decide⟩
  · simp [summaryFor, foldl_add_calories, hc]
  · simp [summaryFor, foldl_add_calories, hb]

/-- `startsWithList n h` holds exactly when `h` extends `n`. -/
theorem startsWithList_iff :
    ∀ n h : List Char, startsWithList n h = true ↔ ∃ t, h = n ++ t
  | [], h => by simp [startsWithList]
  | a :: as, [] => by simp [startsWithList]
  | a :: as, b :: bs => by
    simp only [startsWithList, Bool.and_eq_true, beq_iff_eq,
      startsWithList_iff as bs, List.cons_append]
    constructor
    · rintro ⟨rfl, t, rfl⟩
      exact ⟨t, rfl⟩
    · rintro ⟨t, ht⟩
      injection ht with h1 h2
      exact ⟨h1.symm, t, h2⟩

/-- `containsSub n h` holds exactly when `n` occurs contiguously in `h`
(the substring relation of JS `includes`). -/
theorem containsSub_iff :
    ∀ n h : List Char,
      containsSub n h = true ↔ ∃ pre post, h = pre ++ (n ++ post)
  | n, [] => by
    simp only [containsSub, startsWithList_iff]
    constructor
    · rintro ⟨t, ht⟩
      exact ⟨[], t, by simpa using ht⟩
    · rintro ⟨pre, post, hpp⟩
      rcases List.append_eq_nil.1 hpp.symm with ⟨rfl, h2⟩
      rcases List.append_eq_nil.1 h2 with ⟨rfl, rfl⟩
      exact ⟨[], rfl⟩
  | n, b :: bs => by
    simp only [containsSub, Bool.or_eq_true, startsWithList_iff,
      containsSub_iff n bs]
    constructor
    · rintro (⟨t, ht⟩ | ⟨pre, post, hpp⟩)
      · exact ⟨[], t, by simpa using ht⟩
      · exact ⟨b :: pre, post, by simp [hpp]⟩
    · rintro ⟨pre, post, hpp⟩
      cases pre with
      | nil => exact Or.inl ⟨post, by simpa using hpp⟩
      | cons p ps =>
        right
        obtain ⟨h1, h2⟩ : b = p ∧ bs = ps ++ (n ++ post) := by
          simpa using hpp
        exact ⟨ps, post, h2⟩

/-- Claim C9 (amended): the search filter returns exactly the selected
day's entries whose lower-cased haystack — `name`, a space, then the note
or the empty string — contains the lower-cased search text as a contiguous
substring; and the filter only narrows (every returned entry is one of the
selected day's entries; no store state is touched). -/
theorem search_filters_day_entries (tm : TimeModel) (d : ℤ)
    (entries : List CalorieEntry) (q : String) (e : CalorieEntry) :
    (e ∈ filteredEntries tm d entries q ↔
      e ∈ entries ∧ localDayOf tm e = d
        ∧ ∃ pre post,
            jsLower (searchHaystack e) = pre ++ (jsLower q ++ post))
    ∧ (∀ x ∈ filteredEntries tm d entries q,
        x ∈ entriesForSelectedDay tm d entries) := by
  constructor
  · by_cases hq : q = ""
    · subst hq
      have htriv : ∃ pre post,
          jsLower (searchHaystack e) = pre ++ (jsLower "" ++ post) :=
        ⟨[], jsLower (searchHaystack e), by simp [jsLower]⟩
      rw [filteredEntries, if_pos rfl, mem_entriesForSelectedDay]
      exact ⟨fun h => ⟨h.1, h.2, htriv⟩, fun h => ⟨h.1, h.2.1⟩⟩
    · rw [filteredEntries, if_neg hq, List.mem_filter,
        mem_entriesForSelectedDay, containsSub_iff, and_assoc]
  · intro x hx
    by_cases hq : q = ""
    · subst hq
      simpa [filteredEntries] using hx
    · rw [filteredEntries, if_neg hq] at hx
      exact (List.mem_filter.1 hx).1

/-- An entry matching only in its note, for the C9 witness. -/
def noteEntry : CalorieEntry :=
  { id := "x4", name := "Tea", calories := 5, type := .consumed,
    note := some "With honey", source := .manual, recordedAtIso := "a" }

/-- Witness for C9 at a concrete input: the upper-cased query HONEY,
present only in the note, still returns the entry (case-insensitive,
note-only match). -/
theorem search_filters_day_entries_witness :
    noteEntry ∈ filteredEntries exampleTime 0 [noteEntry] "HONEY" :=
  (search_filters_day_entries exampleTime 0 [noteEntry] "HONEY"
      noteEntry).1.mpr
    ⟨by decide, by decide,
      ⟨"tea with ".data, [], by decide⟩⟩

/-- The spec's search predicate as literally worded: a case-insensitive
substring of the concatenation of `name` and `note` (no separator), for
comparison with the code's space-joined haystack. -/
def specConcatMatch (e : CalorieEntry) (q : String) : Prop :=
  ∃ pre post,
    jsLower (e.name ++ e.note.getD "") = pre ++ (jsLower q ++ post)

/-- An entry whose name/note boundary distinguishes the two readings. -/
def boundaryEntry : CalorieEntry :=
  { id := "x9", name := "ab", calories := 10, type := .consumed,
    note := some "cd", source := .manual, recordedAtIso := "a" }

/-- Counterexample to C9 as stated: for name `ab`, note `cd` and search
text `bc`, the search text is a substring of the plain concatenation
`abcd`, yet the code's filter (which joins name and note with a space,
`ab cd`) does not return the entry. -/
theorem search_boundary_counterexample :
    specConcatMatch boundaryEntry "bc"
    ∧ boundaryEntry ∈ entriesForSelectedDay exampleTime 0 [boundaryEntry]
    ∧ boundaryEntry ∉ filteredEntries exampleTime 0 [boundaryEntry] "bc" :=
  ⟨⟨['a'], ['d'], by decide⟩, by decide, by decide⟩

/-- Claim C7: the worked calculator example — male, 80 kg, 180 cm, age 30,
moderate activity (factor 1.55), goal loss, 0.5 kg per week — yields
BMR 1780, TDEE 2759, a daily delta of 550 and a rounded target of 2209,
with 550 shown as the per-day delta. -/
theorem calculator_worked_example :
    bmrFor .male 80 180 30 = 1780
    ∧ bmrFor .male 80 180 30 * getActivityFactor .moderate = 2759
    ∧ (0.5 : ℚ) * KCAL_PER_KG / 7 = 550
    ∧ onCalculate false .male .moderate .loss (some 80) (some 180) (some 30)
        (some 0.5) = .ok (2209, 550) := by
  refine ⟨by norm_num [bmrFor], by norm_num [bmrFor, getActivityFactor],
    by norm_num [KCAL_PER_KG], ?_⟩
  simp only [onCalculate]
  have hne : ¬ (GoalType.loss = GoalType.maintain) := by decide
  norm_num [toKg, toCm, bmrFor, getActivityFactor, KCAL_PER_KG, jsRound,
    max_def, Int.floor_eq_iff, hne, Option.some_ne_none]

/-- `Math.round 0 = 0`. -/
theorem jsRound_zero : jsRound 0 = 0 := by
  rw [jsRound]
  norm_num [Int.floor_eq_iff]

/-- Counterexample to C8 as stated: for the (degenerate but valid —
weight, height and age all positive) input male, 1 kg, 1 cm, age 100,
sedentary, goal maintain, the TDEE is negative, so the code clamps the
target to `round(max(0, TDEE)) = 0`, which differs from the claim's
`round(TDEE) = -574`. -/
theorem maintain_negative_tdee_counterexample :
    onCalculate false .male .sedentary .maintain (some 1) (some 1)
        (some 100) none = .ok (0, 0)
    ∧ jsRound (bmrFor .male 1 1 100 * getActivityFactor .sedentary) = -574
    ∧ (0 : ℤ) ≠ -574 := by
  refine ⟨?_, ?_, by decide⟩
  · simp only [onCalculate]
    norm_num [toKg, toCm, bmrFor, getActivityFactor, jsRound, max_def,
      Int.floor_eq_iff]
  · rw [jsRound]
    norm_num [bmrFor, getActivityFactor, Int.floor_eq_iff]

/-- Claim C8 (amended): with goal `maintain` and valid body metrics, the
calculator's result does not depend on the weekly-change input at all, the
displayed daily delta is 0, and the target is `round(max(0, TDEE))` (the
code clamps a negative TDEE to zero before rounding). -/
theorem maintain_ignores_weekly_change (ui : Bool) (sex : CalcSex)
    (act : ActivityLevel) (w h : ℚ) (a : ℤ) (c₁ c₂ : Option ℚ)
    (hw : 0 < w) (hh : 0 < h) (ha : 0 < a) :
    onCalculate ui sex act .maintain (some w) (some h) (some a) c₁ =
      onCalculate ui sex act .maintain (some w) (some h) (some a) c₂
    ∧ onCalculate ui sex act .maintain (some w) (some h) (some a) c₁ =
        .ok (jsRound (max 0 (bmrFor sex (toKg ui w) (toCm ui h) a *
          getActivityFactor act)), 0) := by
  have hmm : ¬ (GoalType.maintain = GoalType.loss) := by decide
  have key : ∀ c : Option ℚ,
      onCalculate ui sex act .maintain (some w) (some h) (some a) c =
        .ok (jsRound (max 0 (bmrFor sex (toKg ui w) (toCm ui h) a *
          getActivityFactor act)), 0) := by
    intro c
    simp only [onCalculate]
    rw [if_neg (not_le.mpr hw), if_neg (not_le.mpr hh),
      if_neg (not_le.mpr ha), if_neg (fun hc => hc.1 rfl)]
    simp [hmm, jsRound_zero]
  exact ⟨(key c₁).trans (key c₂).symm, key c₁⟩

/-- Witness for C8 at a concrete input: female, 60 kg, 165 cm, age 30,
light activity; weekly-change inputs 1 and 25 give the same output, with
delta 0 and the clamped rounded TDEE as target. -/
theorem maintain_ignores_weekly_change_witness :
    onCalculate false .female .light .maintain (some 60) (some 165)
        (some 30) (some 1) =
      onCalculate false .female .light .maintain (some 60) (some 165)
        (some 30) (some 25)
    ∧ onCalculate false .female .light .maintain (some 60) (some 165)
        (some 30) (some 1) =
        .ok (jsRound (max 0 (bmrFor .female (toKg false 60) (toCm false 165)
          30 * getActivityFactor .light)), 0) :=
  maintain_ignores_weekly_change false .female .light 60 165 30 (some 1)
    (some 25) (by norm_num) (by norm_num) (by norm_num)

/-- The entry the manual dialog stores for name `Snack` and calorie text
parsing to two fifths: `Math.round(0.4) = 0` calories. -/
def roundedDownEntry : CalorieEntry :=
  { id := "id1", name := "Snack", calories := 0, type := .consumed,
    note := none, source := .manual, recordedAtIso := "t0" }

/-- Evaluating `saveManualEntry` on the parsed calorie input 2/5: the
positivity check passes (2/5 > 0) and the entry is stored with
`Math.round(2/5) = 0` calories. -/
theorem saveManualEntry_fraction_eval :
    saveManualEntry (some .consumed) "Snack" (some (2 / 5)) "" "id1" "t0" =
      .ok roundedDownEntry := by
  have h1 : jsRound (2 / 5 : ℚ) = 0 := by
    rw [jsRound]
    norm_num [Int.floor_eq_iff]
  have h2 : ¬ ((2 / 5 : ℚ) ≤ 0) := by norm_num
  have hname : jsTrim "Snack" = "Snack" := by decide
  have hempty : jsTrim "" = "" := by decide
  have hne : ¬ (jsTrim "Snack" = "") := by decide
  simp [saveManualEntry, hname, hempty, hne, h1, h2, roundedDownEntry]

/-- Counterexample to C1 as stated: the manual-entry creation attempt with
calorie text parsing to 2/5 (e.g. `0.4`) is not rejected — the positivity
check sees 2/5 > 0 — yet the stored entry has `Math.round(2/5) = 0`
calories, so after adding it the store violates `calories > 0`. -/
theorem zero_calorie_entry_stored_counterexample :
    saveManualEntry (some .consumed) "Snack" (some (2 / 5)) "" "id1" "t0" =
      .ok roundedDownEntry
    ∧ roundedDownEntry.calories = 0
    ∧ ((caloriesReducer hydratedSample
          (.addEntry roundedDownEntry)).entries.all
        (fun e => decide (0 < e.calories))) = false :=
  ⟨saveManualEntry_fraction_eval, rfl, by decide⟩

/-- Claim C1 (amended): creation and edit attempts whose parsed calorie
value is non-finite or at most 0 are rejected and dispatch nothing (the
store is unchanged); an accepted attempt stores `Math.round` of a strictly
positive parsed value, which is a nonnegative — but possibly zero, for
parsed values below one half — calorie count. -/
theorem entry_calories_nonnegative (t : CalorieEntryType) (nm : String)
    (cal : Option ℚ) (nt : String) (newId iso : String) (ed : CalorieEntry)
    (en : String) (ecal : Option ℚ) (ent : String)
    (ety : CalorieEntryType) :
    (∀ c, cal = some c → c ≤ 0 →
      ∀ e, saveManualEntry (some t) nm cal nt newId iso ≠ Except.ok e)
    ∧ (∀ e, saveManualEntry (some t) nm cal nt newId iso = Except.ok e →
        0 ≤ e.calories ∧ ∃ c, cal = some c ∧ 0 < c ∧ e.calories = jsRound c)
    ∧ (∀ c, ecal = some c → c ≤ 0 →
      ∀ e, saveEditedEntry (some ed) en ecal ent ety ≠ Except.ok e)
    ∧ (∀ e, saveEditedEntry (some ed) en ecal ent ety = Except.ok e →
        0 ≤ e.calories ∧ ∃ c, ecal = some c ∧ 0 < c ∧
          e.calories = jsRound c) := by
  refine ⟨?_, ?_, ?_, ?_⟩
  · intro c hc hle e hok
    subst hc
    simp only [saveManualEntry] at hok
    by_cases hn : jsTrim nm = ""
    · rw [if_pos hn] at hok
      exact Except.noConfusion hok
    · rw [if_neg hn, if_pos hle] at hok
      exact Except.noConfusion hok
  · intro e hok
    cases cal with
    | none =>
      simp only [saveManualEntry] at hok
      by_cases hn : jsTrim nm = ""
      · rw [if_pos hn] at hok
        exact Except.noConfusion hok
      · rw [if_neg hn] at hok
        exact Except.noConfusion hok
    | some c =>
      simp only [saveManualEntry] at hok
      by_cases hn : jsTrim nm = ""
      · rw [if_pos hn] at hok
        exact Except.noConfusion hok
      · rw [if_neg hn] at hok
        by_cases hc0 : c ≤ 0
        · rw [if_pos hc0] at hok
          exact Except.noConfusion hok
        · rw [if_neg hc0] at hok
          injection hok with he
          subst he
          refine ⟨?_, c, rfl, not_le.mp hc0, rfl⟩
          rw [jsRound]
          refine Int.floor_nonneg.mpr ?_
          have := not_le.mp hc0
          linarith
  · intro c hc hle e hok
    subst hc
    simp only [saveEditedEntry] at hok
    by_cases hn : jsTrim en = ""
    · rw [if_pos hn] at hok
      exact Except.noConfusion hok
    · rw [if_neg hn, if_pos hle] at hok
      exact Except.noConfusion hok
  · intro e hok
    cases ecal with
    | none =>
      simp only [saveEditedEntry] at hok
      by_cases hn : jsTrim en = ""
      · rw [if_pos hn] at hok
        exact Except.noConfusion hok
      · rw [if_neg hn] at hok
        exact Except.noConfusion hok
    | some c =>
      simp only [saveEditedEntry] at hok
      by_cases hn : jsTrim en = ""
      · rw [if_pos hn] at hok
        exact Except.noConfusion hok
      · rw [if_neg hn] at hok
        by_cases hc0 : c ≤ 0
        · rw [if_pos hc0] at hok
          exact Except.noConfusion hok
        · rw [if_neg hc0] at hok
          injection hok with he
          subst he
          refine ⟨?_, c, rfl, not_le.mp hc0, rfl⟩
          rw [jsRound]
          refine Int.floor_nonneg.mpr ?_
          have := not_le.mp hc0
          linarith

/-- Witness for C1 (amended) at concrete inputs: parsed calories -1 is
rejected (nothing dispatched), and the accepted 2/5 attempt stores a
nonnegative calorie count. -/
theorem entry_calories_nonnegative_witness :
    (saveManualEntry (some .consumed) "Snack" (some (-1)) "" "id1" "t0" ≠
      Except.ok roundedDownEntry)
    ∧ 0 ≤ roundedDownEntry.calories :=
  ⟨(entry_calories_nonnegative .consumed "Snack" (some (-1)) "" "id1" "t0"
      sampleEntry "x" none "" .consumed).1 (-1) rfl (by norm_num)
      roundedDownEntry,
   ((entry_calories_nonnegative .consumed "Snack" (some (2 / 5)) "" "id1"
      "t0" sampleEntry "x" none "" .consumed).2.1 roundedDownEntry
      saveManualEntry_fraction_eval).1⟩
